import Mathlib

/-!
CoRoutines: a shallow embedding of `CoRoutines/CoRoutines.h`.

`CoRoutineT<R, T>` wraps a C++20 coroutine handle `co` over a promise that
holds `exc : std::exception_ptr` and (for non-void `T`) `value : U` which is
default-initialized (`U value {};`) until `return_value` / `yield_value`
assigns it.  Both facades use `initial_suspend = final_suspend =
suspend_always`, so a freshly created coroutine is suspended before any body
code has run (`co.done() = false`) and a finished body parks at the final
suspend point (`co.done() = true`) without being destroyed.

We embed one execution state per facade.  A coroutine body is an opaque
callable; what the wrapper can observe of it is exactly the trace of its
suspension points, so a body is represented by that trace:

* a Generator body is a list of values it will `co_yield`, followed by a
  terminal event (running off the end, or throwing an exception);
* a Routine body is a number of bare `co_await CoSuspend{}` suspensions,
  followed by `co_return v` or a throw.

Exceptions are opaque payloads; we identify a body exception by a `Nat`
code.  `promise.value` is modeled as `Option T`: `none` while it is still
default-initialized; the C++ read `co.promise().value` is `value.getD
default`.  `co.resume()` on a coroutine parked at its final suspend point is
undefined behaviour in C++.  Every call site in the wrapper guards it with
`co.done()` except `Iterator::operator++`, which resumes unconditionally.
The guarded sites are modeled by giving `resume` a done-branch no-op they
never enter (also the reading §4.1 of the design gives the transition); the
unguarded `operator++` site is modeled explicitly where operation sequences
are analysed (`GenSt.applyOp`), with no defined post-state when it hits a
finished coroutine.
-/

namespace CoRoutines

/-- An exception observable by a driver of the Generator facade: either the
facade's own `Exc("Generator exhausted")`, or a rethrown body exception
(identified by its code). -/
inductive CoExc where
  | exhausted : CoExc
  | bodyErr : Nat → CoExc
deriving DecidableEq, Repr

/-- Execution state of a Generator coroutine (`CurrentValue` promise plus
handle position).  `pending` are the `co_yield`s the body has not executed
yet; `final` is what the body does after its last yield (`none` = runs off
the end, `some e` = throws `e`); `value` and `exc` are the promise members;
`done` is `co.done()`. -/
structure GenSt (T : Type) where
  pending : List T
  final : Option Nat
  value : Option T
  exc : Option Nat
  done : Bool
deriving Repr

/-- Execution state of a Routine coroutine (`ReturnValue` promise plus
handle position).  `suspends` counts the bare `co_await CoSuspend{}`
markers still ahead of the body; `outcome` is its terminal event
(`.ok v` = `co_return v`, `.error e` = throw `e`). -/
structure RoSt (T : Type) where
  suspends : Nat
  outcome : Except Nat T
  value : Option T
  exc : Option Nat
  done : Bool
deriving Repr

/-- A freshly constructed Generator: suspended at the initial suspend
point, promise members default-initialized. -/
def GenSt.init {T : Type} (yields : List T) (final : Option Nat) : GenSt T :=
  ⟨yields, final, none, none, false⟩

/-- A freshly constructed Routine: suspended at the initial suspend point,
promise members default-initialized. -/
def RoSt.init {T : Type} (k : Nat) (outcome : Except Nat T) : RoSt T :=
  ⟨k, outcome, none, none, false⟩

/-- `co.resume()` on a Generator: runs the body to its next suspension
point.  The next `co_yield v` stores `v` in the promise (`yield_value`) and
suspends; running off the end (`return_void`, then `final_suspend`) parks
the handle done; a throw is captured by `unhandled_exception` and the
handle also parks done.  The done branch is a no-op the guarded call sites
never enter; the one unguarded call site, `Iterator::operator++`, is
modeled with an explicit undefined-behaviour case in `GenSt.applyOp`. -/
def GenSt.resume {T : Type} (s : GenSt T) : GenSt T :=
  if s.done then s
  else
    match s.pending with
    | v :: rest => { s with pending := rest, value := some v }
    | [] =>
      match s.final with
      | none => { s with done := true }
      | some e => { s with exc := some e, done := true }

/-- `co.resume()` on a Routine: the next bare suspension just yields
control; with none left, the body finishes with `co_return v`
(`return_value` stores `v`) or a throw (`unhandled_exception` stores it),
and the handle parks done. -/
def RoSt.resume {T : Type} (s : RoSt T) : RoSt T :=
  if s.done then s
  else
    match s.suspends with
    | n + 1 => { s with suspends := n }
    | 0 =>
      match s.outcome with
      | .ok v => { s with value := some v, done := true }
      | .error e => { s with exc := some e, done := true }

/-- `CoRoutineT::Do` (Routine facade): if `co.done()` return `false`;
otherwise `co.resume()`, `Rethrow()` (propagate `promise().exc` if set),
and return `!co.done()`.  The pair is (what the call returns or throws,
the state it leaves behind). -/
def RoSt.Do {T : Type} (s : RoSt T) : Except Nat Bool × RoSt T :=
  if s.done then (.ok false, s)
  else
    let t := s.resume
    match t.exc with
    | some e => (.error e, t)
    | none => (.ok (!t.done), t)

/-- `CoRoutineT::Get`: returns `co.promise().value` (the C++ member is
default-initialized until `return_value` runs, hence `getD default`).  Its
`ASSERT(co)` / `ASSERT(co.done())` preconditions are stated at use sites. -/
def RoSt.Get {T : Type} [Inhabited T] (s : RoSt T) : T :=
  s.value.getD default

/-- `CoRoutineT::Next` (Generator facade): if `co.done()` throw
`Exc("Generator exhausted")`; otherwise `co.resume()`, `Rethrow()`, throw
the exhaustion error again if the resume finished the body, else return
`co.promise().value` (just stored by `yield_value`). -/
def GenSt.Next {T : Type} [Inhabited T] (s : GenSt T) : Except CoExc T × GenSt T :=
  if s.done then (.error .exhausted, s)
  else
    let t := s.resume
    match t.exc with
    | some e => (.error (.bodyErr e), t)
    | none =>
      if t.done then (.error .exhausted, t)
      else (.ok (t.value.getD default), t)

/-- `CoRoutineT::PickNext`: same steps as `Next`, but `pick`s (moves) the
stored value out instead of copying it; the delivered payload is the
same. -/
def GenSt.PickNext {T : Type} [Inhabited T] (s : GenSt T) : Except CoExc T × GenSt T :=
  if s.done then (.error .exhausted, s)
  else
    let t := s.resume
    match t.exc with
    | some e => (.error (.bodyErr e), t)
    | none =>
      if t.done then (.error .exhausted, t)
      else (.ok (t.value.getD default), t)

/-- Drive a Routine with `n` successive `Do` calls, collecting each call's
result (returned Bool or propagated exception) and the final state. -/
def RoSt.runDo {T : Type} : Nat → RoSt T → List (Except Nat Bool) × RoSt T
  | 0, s => ([], s)
  | n + 1, s =>
    let (r, t) := s.Do
    let (rs, u) := RoSt.runDo n t
    (r :: rs, u)

/-- Drive a Generator with `n` successive `Next` calls, collecting each
call's result (returned value or thrown exception) and the final state. -/
def GenSt.runNext {T : Type} [Inhabited T] :
    Nat → GenSt T → List (Except CoExc T) × GenSt T
  | 0, s => ([], s)
  | n + 1, s =>
    let (r, t) := s.Next
    let (rs, u) := GenSt.runNext n t
    (r :: rs, u)

/-- `Iterator::operator*`: reads `gen->co.promise().value` (`gen` must be
non-null, per its `ASSERT(gen)`). -/
def GenSt.deref {T : Type} [Inhabited T] (s : GenSt T) : T :=
  s.value.getD default

/-- The `Iterator(CoRoutineT* g)` constructor reached from `begin()` (so
`g` is `this`, never null): if the generator is not done it primes the
sequence with one resume, rethrows a captured exception, and nulls the
`gen` pointer if that resume finished the body.  `some s` stands for an
iterator whose `gen` pointer refers to the generator, now in state `s`;
`none` is a null `gen`, i.e. an iterator equal to the end sentinel.
Note the guard: when the generator is already done, the body of the `if`
is skipped and `gen` is left pointing at the generator. -/
def GenSt.iterBegin {T : Type} (s : GenSt T) : Except Nat (Option (GenSt T)) :=
  if s.done then .ok (some s)
  else
    let t := s.resume
    match t.exc with
    | some e => .error e
    | none => .ok (if t.done then none else some t)

/-- `Iterator::operator++`: resumes the generator, rethrows a captured
exception, and nulls the `gen` pointer if the resume finished the body. -/
def GenSt.iterStep {T : Type} (s : GenSt T) : Except Nat (Option (GenSt T)) :=
  let t := s.resume
  match t.exc with
  | some e => .error e
  | none => .ok (if t.done then none else some t)

/-- Termination measure for driving an iterator: pending yields plus one
step to park done plus one step to observe it. -/
def iterMeasure {T : Type} : Option (GenSt T) → Nat
  | none => 0
  | some s => s.pending.length + (if s.done then 0 else 1) + 1

theorem iterStep_measure {T : Type} (s : GenSt T) (it : Option (GenSt T))
    (h : s.iterStep = .ok it) : iterMeasure it < iterMeasure (some s) := by
  obtain ⟨pending, final, value, exc, done⟩ := s
  cases done with
  | true =>
    cases exc with
    | some e => simp [GenSt.iterStep, GenSt.resume] at h
    | none =>
      simp [GenSt.iterStep, GenSt.resume] at h
      subst h
      simp [iterMeasure]
  | false =>
    cases pending with
    | nil =>
      cases final with
      | some e => simp [GenSt.iterStep, GenSt.resume] at h
      | none =>
        cases exc with
        | some e => simp [GenSt.iterStep, GenSt.resume] at h
        | none =>
          simp [GenSt.iterStep, GenSt.resume] at h
          subst h
          simp [iterMeasure]
    | cons w rest =>
      cases exc with
      | some e => simp [GenSt.iterStep, GenSt.resume] at h
      | none =>
        simp [GenSt.iterStep, GenSt.resume] at h
        subst h
        simp [iterMeasure]

/-- The loop a range-`for` runs from an iterator position: while the
iterator differs from the end sentinel, read `operator*`, then
`operator++`; a propagated exception aborts the whole loop. -/
def GenSt.iterDrive {T : Type} [Inhabited T] :
    Option (GenSt T) → Except Nat (List T)
  | none => .ok []
  | some s =>
    match h : s.iterStep with
    | .error e => .error e
    | .ok it => (GenSt.iterDrive it).map (fun vs => s.deref :: vs)
termination_by it => iterMeasure it
decreasing_by
  exact iterStep_measure s it h

/-- Consuming a Generator with a range-`for` over `begin()`/`end()`:
construct the iterator (priming resume included), then drive it to the end
sentinel, collecting the dereferenced values. -/
def GenSt.iterate {T : Type} [Inhabited T] (s : GenSt T) :
    Except Nat (List T) :=
  s.iterBegin.bind GenSt.iterDrive

/-- Termination measure for draining a generator with `Next`. -/
def nextMeasure {T : Type} (s : GenSt T) : Nat :=
  s.pending.length + (if s.done then 0 else 1)

theorem next_ok_measure {T : Type} [Inhabited T] (s : GenSt T) (v : T)
    (t : GenSt T) (h : s.Next = (.ok v, t)) :
    nextMeasure t < nextMeasure s := by
  obtain ⟨pending, final, value, exc, done⟩ := s
  cases done with
  | true => simp [GenSt.Next] at h
  | false =>
    cases pending with
    | nil =>
      cases final with
      | some e => simp [GenSt.Next, GenSt.resume] at h
      | none => cases exc <;> simp [GenSt.Next, GenSt.resume] at h
    | cons w rest =>
      cases exc with
      | some e => simp [GenSt.Next, GenSt.resume] at h
      | none =>
        simp [GenSt.Next, GenSt.resume] at h
        obtain ⟨hv, ht⟩ := h
        subst ht
        simp [nextMeasure]

/-- Consuming a Generator by calling `Next` until it throws: the values
returned before the first exception, and that exception. -/
def GenSt.nextAll {T : Type} [Inhabited T] (s : GenSt T) : List T × CoExc :=
  match h : s.Next with
  | (.error e, _) => ([], e)
  | (.ok v, t) =>
    let (vs, e) := GenSt.nextAll t
    (v :: vs, e)
termination_by nextMeasure s
decreasing_by
  exact next_ok_measure s v t h

/-- A `CoRoutineT` object at the handle level: its single data member
`co`, which is either a live coroutine (with its execution state) or the
null handle `{}` of a moved-from object. -/
structure CoHandle (σ : Type) where
  co : Option σ

/-- The move constructor `CoRoutineT(CoRoutineT&& r)`: the new object
takes `r.co`, the source is left with the null handle.  Returns (new
object, what `r` becomes). -/
def CoHandle.moveCtor {σ : Type} (r : CoHandle σ) :
    CoHandle σ × CoHandle σ :=
  (⟨r.co⟩, ⟨none⟩)

/-- The move assignment `operator=(CoRoutineT&& r)`: if `this != &r`,
destroy the currently owned coroutine (if any), take `r.co`, null out
`r.co`; self-assignment is a no-op.  `aliased` says whether `this == &r`
(in which case `dst` and `src` describe the same object).  Returns (what
`*this` becomes, what `r` becomes, the coroutine state that was
destroyed). -/
def CoHandle.moveAssign {σ : Type} (dst src : CoHandle σ)
    (aliased : Bool) : CoHandle σ × CoHandle σ × Option σ :=
  if aliased then (dst, src, none)
  else (⟨src.co⟩, ⟨none⟩, dst.co)

/-- The destructor `~CoRoutineT`: destroys the owned coroutine if the
handle is non-null, a no-op otherwise.  Returns the destroyed state. -/
def CoHandle.destroy {σ : Type} (h : CoHandle σ) : Option σ :=
  h.co

/-- `Do` called through a handle: `ASSERT(co)` makes calling it on an
empty (moved-from) handle a contract violation, modeled as `none`. -/
def CoHandle.hDo {T : Type} (h : CoHandle (RoSt T)) :
    Option (Except Nat Bool × CoHandle (RoSt T)) :=
  match h.co with
  | none => none
  | some s =>
    let (r, t) := s.Do
    some (r, ⟨some t⟩)

/-- `Next` called through a handle: `ASSERT(co)` makes calling it on an
empty (moved-from) handle a contract violation, modeled as `none`. -/
def CoHandle.hNext {T : Type} [Inhabited T] (h : CoHandle (GenSt T)) :
    Option (Except CoExc T × CoHandle (GenSt T)) :=
  match h.co with
  | none => none
  | some s =>
    let (r, t) := s.Next
    some (r, ⟨some t⟩)

/-- The operations that can touch a Generator execution state. -/
inductive GenOp where
  | next : GenOp
  | pickNext : GenOp
  | beginIt : GenOp
  | plusIt : GenOp

/-- The effect of one Generator-facade operation on the execution state,
`none` when the operation executes `co.resume()` on an already-finished
coroutine — undefined behaviour, with no defined post-state.
`Next`/`PickNext` return early under their `co.done()` guard before
resuming; the iterator constructor resumes only inside its
`!gen->co.done()` guard; but `Iterator::operator++` calls
`gen->co.resume()` unconditionally. -/
def GenSt.applyOp {T : Type} [Inhabited T] : GenOp → GenSt T → Option (GenSt T)
  | .next, s => some s.Next.2
  | .pickNext, s => some s.PickNext.2
  | .beginIt, s => some (if s.done then s else s.resume)
  | .plusIt, s => if s.done then none else some s.resume

/-- The state after a whole sequence of Generator operations, `none` as
soon as one of them resumes an already-finished coroutine. -/
def GenSt.applyOps {T : Type} [Inhabited T] (ops : List GenOp) (s : GenSt T) :
    Option (GenSt T) :=
  ops.foldl (fun t op => t.bind (GenSt.applyOp op)) (some s)

end CoRoutines

namespace CoRoutines

/-! ## Helper lemmas on driving loops -/

/-- A done Generator state answers every `Next` with the exhaustion error
and never changes. -/
theorem runNext_done {T : Type} [Inhabited T] (n : Nat) (s : GenSt T)
    (h : s.done = true) :
    GenSt.runNext n s = (List.replicate n (.error .exhausted), s) := by
  induction n with
  | zero => rfl
  | succ n ih =>
    simp only [GenSt.runNext, GenSt.Next, h, if_true, ih, List.replicate]

/-- A done Routine state answers every `Do` with `false` and never
changes. -/
theorem runDo_done {T : Type} (n : Nat) (s : RoSt T) (h : s.done = true) :
    RoSt.runDo n s = (List.replicate n (.ok false), s) := by
  induction n with
  | zero => rfl
  | succ n ih =>
    simp only [RoSt.runDo, RoSt.Do, h, if_true, ih, List.replicate]

/-- Driving a fresh Generator body that yields `vs` and then runs off its
end: the first `vs.length` calls return the yields in order and every
later call throws the exhaustion error. -/
theorem runNext_yields {T : Type} [Inhabited T] (vs : List T)
    (val : Option T) (k : Nat) :
    (GenSt.runNext (vs.length + k) ⟨vs, none, val, none, false⟩).1 =
      vs.map Except.ok ++ List.replicate k (.error .exhausted) := by
  induction vs generalizing val with
  | nil =>
    cases k with
    | zero => simp [GenSt.runNext]
    | succ k =>
      have h1 : GenSt.Next (⟨[], none, val, none, false⟩ : GenSt T) =
          (.error .exhausted, ⟨[], none, val, none, true⟩) := by
        simp [GenSt.Next, GenSt.resume]
      have h2 : GenSt.runNext k (⟨[], none, val, none, true⟩ : GenSt T) =
          (List.replicate k (.error .exhausted), ⟨[], none, val, none, true⟩) :=
        runNext_done k _ rfl
      simp [GenSt.runNext, h1, h2, List.replicate_succ]
  | cons v rest ih =>
    have h1 : GenSt.Next (⟨v :: rest, none, val, none, false⟩ : GenSt T) =
        (.ok v, ⟨rest, none, some v, none, false⟩) := by
      simp [GenSt.Next, GenSt.resume]
    simp only [List.length_cons, Nat.succ_add, GenSt.runNext, h1,
      ih (some v), List.map_cons, List.cons_append]

/-- Driving a fresh Generator body that yields `vs` and then throws `e`:
the yields come back in order, the next call propagates the body
exception, and every call after that throws the exhaustion error. -/
theorem runNext_err {T : Type} [Inhabited T] (vs : List T) (val : Option T)
    (e m : Nat) :
    (GenSt.runNext (vs.length + 1 + m) ⟨vs, some e, val, none, false⟩).1 =
      vs.map Except.ok ++
        .error (.bodyErr e) :: List.replicate m (.error .exhausted) := by
  induction vs generalizing val with
  | nil =>
    have hn : ([] : List T).length + 1 + m = m + 1 := by simp; omega
    have h1 : GenSt.Next (⟨[], some e, val, none, false⟩ : GenSt T) =
        (.error (.bodyErr e), ⟨[], some e, val, some e, true⟩) := by
      simp [GenSt.Next, GenSt.resume]
    have h2 : GenSt.runNext m (⟨[], some e, val, some e, true⟩ : GenSt T) =
        (List.replicate m (.error .exhausted), ⟨[], some e, val, some e, true⟩) :=
      runNext_done m _ rfl
    rw [hn]
    simp [GenSt.runNext, h1, h2]
  | cons v rest ih =>
    have hn : (v :: rest).length + 1 + m = (rest.length + 1 + m) + 1 := by
      simp [List.length_cons]; omega
    have h1 : GenSt.Next (⟨v :: rest, some e, val, none, false⟩ : GenSt T) =
        (.ok v, ⟨rest, some e, some v, none, false⟩) := by
      simp [GenSt.Next, GenSt.resume]
    rw [hn]
    simp only [GenSt.runNext, h1, List.map_cons, List.cons_append]
    simp [ih (some v)]

/-- While suspension markers remain, each `Do` call just burns one of them
and reports `true`; the promise members are untouched. -/
theorem runDo_upto {T : Type} (j k : Nat) (o : Except Nat T)
    (val : Option T) (h : j ≤ k) :
    RoSt.runDo j ⟨k, o, val, none, false⟩ =
      (List.replicate j (.ok true), ⟨k - j, o, val, none, false⟩) := by
  induction j generalizing k with
  | zero => rfl
  | succ j ih =>
    obtain ⟨k, rfl⟩ : ∃ n, k = n + 1 := ⟨k - 1, by omega⟩
    have h1 : RoSt.Do (⟨k + 1, o, val, none, false⟩ : RoSt T) =
        (.ok true, ⟨k, o, val, none, false⟩) := by
      simp [RoSt.Do, RoSt.resume]
    simp only [RoSt.runDo, h1, ih k (by omega), List.replicate_succ,
      Nat.succ_sub_succ]

/-- Driving a fresh Routine body that suspends `k` times and then returns
`v`: `k` calls report `true`, the `(k+1)`-th reports `false` having stored
`v` in the promise, and every later call keeps reporting `false` on the
unchanged done state. -/
theorem runDo_ok {T : Type} (k : Nat) (v : T) (val : Option T) (m : Nat) :
    RoSt.runDo (k + 1 + m) ⟨k, .ok v, val, none, false⟩ =
      (List.replicate k (.ok true) ++ List.replicate (1 + m) (.ok false),
       ⟨0, .ok v, some v, none, true⟩) := by
  induction k with
  | zero =>
    have h1 : RoSt.Do (⟨0, .ok v, val, none, false⟩ : RoSt T) =
        (.ok false, ⟨0, .ok v, some v, none, true⟩) := by
      simp [RoSt.Do, RoSt.resume]
    have h2 : RoSt.runDo m (⟨0, .ok v, some v, none, true⟩ : RoSt T) =
        (List.replicate m (.ok false), ⟨0, .ok v, some v, none, true⟩) :=
      runDo_done m _ rfl
    have hn : (0 : Nat) + 1 + m = m + 1 := by omega
    rw [hn]
    simp [RoSt.runDo, h1, h2, List.replicate_succ]
  | succ k ih =>
    have h1 : RoSt.Do (⟨k + 1, .ok v, val, none, false⟩ : RoSt T) =
        (.ok true, ⟨k, .ok v, val, none, false⟩) := by
      simp [RoSt.Do, RoSt.resume]
    have : k + 1 + 1 + m = (k + 1 + m) + 1 := by omega
    rw [this]
    simp only [RoSt.runDo, h1, ih, List.replicate_succ, List.cons_append]

/-- Driving a fresh Routine body that suspends `k` times and then throws
`e`: `k` calls report `true`, the `(k+1)`-th propagates `e` leaving the
state done with the exception captured and no value stored, and every
later call reports `false` without re-raising. -/
theorem runDo_err {T : Type} (k e : Nat) (val : Option T) (m : Nat) :
    RoSt.runDo (k + 1 + m) ⟨k, (.error e : Except Nat T), val, none, false⟩ =
      (List.replicate k (.ok true) ++ .error e :: List.replicate m (.ok false),
       ⟨0, .error e, val, some e, true⟩) := by
  induction k with
  | zero =>
    have h1 : RoSt.Do (⟨0, (.error e : Except Nat T), val, none, false⟩ : RoSt T) =
        (.error e, ⟨0, .error e, val, some e, true⟩) := by
      simp [RoSt.Do, RoSt.resume]
    have h2 : RoSt.runDo m (⟨0, (.error e : Except Nat T), val, some e, true⟩ : RoSt T) =
        (List.replicate m (.ok false), ⟨0, .error e, val, some e, true⟩) :=
      runDo_done m _ rfl
    have hn : (0 : Nat) + 1 + m = m + 1 := by omega
    rw [hn]
    simp [RoSt.runDo, h1, h2]
  | succ k ih =>
    have h1 : RoSt.Do (⟨k + 1, (.error e : Except Nat T), val, none, false⟩ : RoSt T) =
        (.ok true, ⟨k, .error e, val, none, false⟩) := by
      simp [RoSt.Do, RoSt.resume]
    have : k + 1 + 1 + m = (k + 1 + m) + 1 := by omega
    rw [this]
    simp only [RoSt.runDo, h1, ih, List.replicate_succ, List.cons_append]

/-- One step of `nextAll` when `Next` throws. -/
theorem nextAll_step_err {T : Type} [Inhabited T] (s : GenSt T) (e : CoExc)
    (t : GenSt T) (h : s.Next = (.error e, t)) : s.nextAll = ([], e) := by
  conv_lhs => unfold GenSt.nextAll
  split <;> rename_i heq <;> rw [h] at heq <;> simp_all

/-- One step of `nextAll` when `Next` returns a value. -/
theorem nextAll_step_ok {T : Type} [Inhabited T] (s : GenSt T) (v : T)
    (t : GenSt T) (h : s.Next = (.ok v, t)) :
    s.nextAll = (v :: t.nextAll.1, t.nextAll.2) := by
  conv_lhs => unfold GenSt.nextAll
  split <;> rename_i heq <;> rw [h] at heq <;> simp_all

/-- Draining a fresh Generator body with `Next`: all the yields come back
in order, then the terminal event surfaces as the exhaustion error (body
ran off its end) or as the propagated body exception. -/
theorem nextAll_fresh {T : Type} [Inhabited T] (vs : List T)
    (final : Option Nat) (val : Option T) :
    GenSt.nextAll ⟨vs, final, val, none, false⟩ =
      (vs, match final with
           | none => CoExc.exhausted
           | some e => CoExc.bodyErr e) := by
  induction vs generalizing val with
  | nil =>
    cases final with
    | none =>
      exact nextAll_step_err _ _ ⟨[], none, val, none, true⟩
        (by simp [GenSt.Next, GenSt.resume])
    | some e =>
      exact nextAll_step_err _ _ ⟨[], some e, val, some e, true⟩
        (by simp [GenSt.Next, GenSt.resume])
  | cons v rest ih =>
    rw [nextAll_step_ok _ v ⟨rest, final, some v, none, false⟩
      (by simp [GenSt.Next, GenSt.resume]), ih (some v)]

/-- One step of `iterDrive` when `operator++` (or the state it starts
from) ends the loop or throws. -/
theorem iterDrive_none {T : Type} [Inhabited T] :
    GenSt.iterDrive (T := T) none = .ok [] := by
  unfold GenSt.iterDrive
  rfl

/-- One step of `iterDrive` on a live iterator. -/
theorem iterDrive_some {T : Type} [Inhabited T] (s : GenSt T) :
    GenSt.iterDrive (some s) =
      match s.iterStep with
      | .error e => .error e
      | .ok it => (GenSt.iterDrive it).map (fun vs => s.deref :: vs) := by
  conv_lhs => unfold GenSt.iterDrive
  cases h : s.iterStep with
  | error e => simp [h]
  | ok it => simp [h]

/-- Driving an iterator positioned on a freshly yielded value `v` with
`vs` yields still pending: the loop collects `v :: vs` if the body then
runs off its end, and aborts with the body exception otherwise. -/
theorem iterDrive_at {T : Type} [Inhabited T] (vs : List T) (v : T)
    (final : Option Nat) :
    GenSt.iterDrive (some ⟨vs, final, some v, none, false⟩) =
      (match final with
       | none => .ok (v :: vs)
       | some e => .error e) := by
  induction vs generalizing v with
  | nil =>
    rw [iterDrive_some]
    cases final with
    | none =>
      simp [GenSt.iterStep, GenSt.resume, iterDrive_none, GenSt.deref,
        Except.map]
    | some e => simp [GenSt.iterStep, GenSt.resume]
  | cons w rest ih =>
    rw [iterDrive_some]
    have hstep : GenSt.iterStep (⟨w :: rest, final, some v, none, false⟩ : GenSt T) =
        .ok (some ⟨rest, final, some w, none, false⟩) := by
      simp [GenSt.iterStep, GenSt.resume]
    simp only [hstep]
    rw [ih w]
    cases final with
    | none => simp [GenSt.deref, Except.map]
    | some e => rfl

/-- Consuming a fresh Generator with the range-`for` adapter: the yields
come back in order and the loop ends silently when the body runs off its
end, while a body exception (during priming or advancing) aborts the loop
as that exception. -/
theorem iterate_fresh {T : Type} [Inhabited T] (vs : List T)
    (final : Option Nat) (val : Option T) :
    GenSt.iterate ⟨vs, final, val, none, false⟩ =
      (match final with
       | none => .ok vs
       | some e => .error e) := by
  cases vs with
  | nil =>
    cases final with
    | none =>
      simp [GenSt.iterate, GenSt.iterBegin, GenSt.resume, iterDrive_none,
        Except.bind]
    | some e => simp [GenSt.iterate, GenSt.iterBegin, GenSt.resume, Except.bind]
  | cons v rest =>
    have hb : GenSt.iterBegin (⟨v :: rest, final, val, none, false⟩ : GenSt T) =
        .ok (some ⟨rest, final, some v, none, false⟩) := by
      simp [GenSt.iterBegin, GenSt.resume]
    simp only [GenSt.iterate, hb, Except.bind, iterDrive_at]

/-! ## Claim theorems -/

/-- C1: for a Generator whose body yields `vs` in order and then
completes, the first `vs.length` calls to `Next()` return the yields in
that exact order, and the next and every subsequent call raises the
exhaustion error — exhaustion is terminal and stable. -/
theorem C1_generator_yields_in_order_then_exhausted {T : Type} [Inhabited T]
    (vs : List T) (k : Nat) :
    (GenSt.runNext (vs.length + k) (GenSt.init vs none)).1 =
      vs.map Except.ok ++ List.replicate k (.error .exhausted) :=
  runNext_yields vs none k

/-- C2: for a Routine whose body suspends `k` times before terminating
with `v`, exactly the first `k` calls to `Do()` return `true`, the
`(k+1)`-th returns `false`, `Get()`'s precondition (`co.done()`) holds
exactly after that call, and from then on `Get()` returns `v` with the
terminal value stored; the `k = 0` instance is the immediate-termination
case. -/
theorem C2_routine_suspends_then_value {T : Type} [Inhabited T] (k : Nat)
    (v : T) (m j : Nat) :
    (RoSt.runDo (k + 1 + m) (RoSt.init k (.ok v))).1 =
        List.replicate k (.ok true) ++ List.replicate (1 + m) (.ok false)
    ∧ (RoSt.runDo j (RoSt.init k (.ok v))).2.done = decide (k < j)
    ∧ (RoSt.runDo (k + 1 + m) (RoSt.init k (.ok v))).2.Get = v
    ∧ (RoSt.runDo (k + 1 + m) (RoSt.init k (.ok v))).2.value = some v := by
  refine ⟨?_, ?_, ?_, ?_⟩
  · rw [show RoSt.init k (Except.ok v) = (⟨k, .ok v, none, none, false⟩ : RoSt T)
      from rfl, runDo_ok]
  · by_cases hj : j ≤ k
    · rw [show RoSt.init k (Except.ok v) = (⟨k, .ok v, none, none, false⟩ : RoSt T)
        from rfl, runDo_upto j k _ _ hj]
      have : ¬ k < j := by omega
      simp [this]
    · obtain ⟨m2, rfl⟩ : ∃ m2, j = k + 1 + m2 := ⟨j - (k + 1), by omega⟩
      rw [show RoSt.init k (Except.ok v) = (⟨k, .ok v, none, none, false⟩ : RoSt T)
        from rfl, runDo_ok]
      have : k < k + 1 + m2 := by omega
      simp [this]
  · rw [show RoSt.init k (Except.ok v) = (⟨k, .ok v, none, none, false⟩ : RoSt T)
      from rfl, runDo_ok]
    rfl
  · rw [show RoSt.init k (Except.ok v) = (⟨k, .ok v, none, none, false⟩ : RoSt T)
      from rfl, runDo_ok]

/-- C3: on a not-yet-terminated Generator state (promise exception clear,
as every reachable live state has it), `Next()` resumes once and: returns
the freshly yielded value when the body reaches a `co_yield` (not the
previously stored one); propagates the body's exception — not the
exhaustion error — when the resume throws; raises the exhaustion error —
not the stale stored value — when the resume runs the body off its end.
`PickNext()` behaves identically on every state. -/
theorem C3_next_contract {T : Type} [Inhabited T] (val : Option T) (v : T)
    (rest : List T) (final : Option Nat) (e : Nat) :
    GenSt.Next ⟨v :: rest, final, val, none, false⟩ =
        (.ok v, ⟨rest, final, some v, none, false⟩)
    ∧ GenSt.Next ⟨[], some e, val, none, false⟩ =
        (.error (.bodyErr e), ⟨[], some e, val, some e, true⟩)
    ∧ GenSt.Next ⟨[], none, val, none, false⟩ =
        (.error .exhausted, ⟨[], none, val, none, true⟩)
    ∧ ∀ s : GenSt T, s.PickNext = s.Next := by
  refine ⟨by simp [GenSt.Next, GenSt.resume],
          by simp [GenSt.Next, GenSt.resume],
          by simp [GenSt.Next, GenSt.resume],
          fun s => rfl⟩

/-- C4: for a Routine whose body suspends `k` times and then throws `e`,
the `(k+1)`-th `Do()` call — the one whose resume hit the throw —
propagates `e` and leaves the state terminated with the exception
captured; every later call returns `false` without re-raising, so the
failure is surfaced exactly once. -/
theorem C4_routine_failure_surfaced_once {T : Type} (k e m : Nat) :
    (RoSt.runDo (k + 1 + m) (RoSt.init (T := T) k (.error e))).1 =
        List.replicate k (.ok true) ++
          .error e :: List.replicate m (.ok false)
    ∧ (RoSt.runDo (k + 1 + m) (RoSt.init (T := T) k (.error e))).2.done = true
    ∧ (RoSt.runDo (k + 1 + m) (RoSt.init (T := T) k (.error e))).2.exc = some e := by
  refine ⟨?_, ?_, ?_⟩ <;>
    rw [show RoSt.init (T := T) k (Except.error e) =
      (⟨k, .error e, none, none, false⟩ : RoSt T) from rfl, runDo_err]

/-- C5: consuming a fresh Generator through the `begin()`/`end()` adapter
produces exactly the values repeated `Next()` calls produce, in the same
order, and the iteration reaches the end sentinel silently exactly where
`Next()` would first raise the exhaustion error; a body exception raised
during the priming resume (`vs = []`) or during `operator++` still
propagates as that exception, not as a silent end. -/
theorem C5_iteration_refines_next {T : Type} [Inhabited T] (vs : List T)
    (e : Nat) :
    GenSt.iterate (GenSt.init vs none) = .ok vs
    ∧ GenSt.nextAll (GenSt.init vs none) = (vs, .exhausted)
    ∧ GenSt.iterate (GenSt.init vs (some e)) = .error e
    ∧ GenSt.nextAll (GenSt.init vs (some e)) = (vs, .bodyErr e) := by
  refine ⟨?_, ?_, ?_, ?_⟩
  · exact iterate_fresh vs none none
  · exact nextAll_fresh vs none none
  · exact iterate_fresh vs (some e) none
  · exact nextAll_fresh vs (some e) none

/-- C6 (against the claim): on a Generator already driven to exhaustion —
here the body that yielded `0` once, after two `Next()` calls — the
`Iterator` constructor invoked by `begin()` skips its guarded block and
leaves its `gen` pointer set, so the new iterator does NOT equal the end
sentinel, and dereferencing it reads the stale value `0`. -/
theorem C6_begin_on_exhausted_is_not_end :
    ((GenSt.runNext 2 (GenSt.init [0] none)).2.done = true)
    ∧ GenSt.iterBegin (GenSt.runNext 2 (GenSt.init [0] none)).2 =
        .ok (some (GenSt.runNext 2 (GenSt.init [0] none)).2)
    ∧ some (GenSt.runNext 2 (GenSt.init [0] none)).2 ≠
        (none : Option (GenSt Nat))
    ∧ (GenSt.runNext 2 (GenSt.init [0] none)).2.deref = 0 := by
  refine ⟨rfl, rfl, ?_, rfl⟩
  simp

/-- C7: if a body raises `e` on its `j`-th resume (Routine: after `j - 1`
suspensions; Generator: after its yields), the `j`-th driving call
propagates `e`, the handle is terminated from then on, and no valid value
is ever observable: the Routine's stored `last_value` remains unset at
every inspection point, and every Generator call from the failure on
returns an error, never a value. -/
theorem C7_failure_means_no_value {T : Type} [Inhabited T] (k e n m : Nat)
    (vs : List T) :
    (RoSt.runDo n (RoSt.init (T := T) k (.error e))).2.value = none
    ∧ (RoSt.runDo (k + 1 + m) (RoSt.init (T := T) k (.error e))).1 =
        List.replicate k (.ok true) ++
          .error e :: List.replicate m (.ok false)
    ∧ (GenSt.runNext (vs.length + 1 + m) (GenSt.init vs (some e))).1 =
        vs.map Except.ok ++
          .error (.bodyErr e) :: List.replicate m (.error .exhausted) := by
  refine ⟨?_, ?_, ?_⟩
  · by_cases hn : n ≤ k
    · rw [show RoSt.init (T := T) k (Except.error e) =
        (⟨k, .error e, none, none, false⟩ : RoSt T) from rfl,
        runDo_upto n k _ _ hn]
    · obtain ⟨m2, rfl⟩ : ∃ m2, n = k + 1 + m2 := ⟨n - (k + 1), by omega⟩
      rw [show RoSt.init (T := T) k (Except.error e) =
        (⟨k, .error e, none, none, false⟩ : RoSt T) from rfl, runDo_err]
  · rw [show RoSt.init (T := T) k (Except.error e) =
      (⟨k, .error e, none, none, false⟩ : RoSt T) from rfl, runDo_err]
  · exact runNext_err vs none e m

/-- C8: a move (construction or assignment) transfers exclusive
ownership: the source is left with the null handle, calling `Do()` or
`Next()` through it is a contract violation while destroying it is a
harmless no-op, and the destination holds exactly the coroutine the
source held, so its subsequent calls observe precisely what the source's
would have. -/
theorem C8_move_transfers_ownership {T : Type} [Inhabited T]
    (r : CoHandle (GenSt T)) (p : CoHandle (RoSt T))
    (dst src : CoHandle (GenSt T)) :
    r.moveCtor.2.co = none
    ∧ r.moveCtor.1 = r
    ∧ CoHandle.hNext (⟨none⟩ : CoHandle (GenSt T)) = none
    ∧ CoHandle.hDo (⟨none⟩ : CoHandle (RoSt T)) = none
    ∧ CoHandle.destroy (⟨none⟩ : CoHandle (GenSt T)) = none
    ∧ r.moveCtor.1.hNext = r.hNext
    ∧ p.moveCtor.1.hDo = p.hDo
    ∧ (dst.moveAssign src false).1.co = src.co
    ∧ (dst.moveAssign src false).2.1.co = none
    ∧ (dst.moveAssign src false).1.hNext = src.hNext := by
  exact ⟨rfl, rfl, rfl, rfl, rfl, rfl, rfl, rfl, rfl, rfl⟩

/-- C9 (against the claim): the operation sequence `Next()`, `Next()`,
`begin()`, `operator++` on the generator whose body yields only `0` is
reachable through the public API — the two `Next()` calls exhaust the
generator, the defective `begin()` leaves an iterator that does not equal
the end sentinel, and a range-`for` then applies `operator++` to it.  The
state is already terminated (`done = true`) after the first three
operations, yet the fourth executes `gen->co.resume()` on the finished
coroutine (undefined behaviour, `none`), so "no operation resumes an
already-terminated computation" fails on the code. -/
theorem C9_plusplus_resumes_terminated :
    GenSt.applyOps [GenOp.next, GenOp.next, GenOp.beginIt]
        (GenSt.init [0] none) =
      some ⟨[], none, some 0, none, true⟩
    ∧ GenSt.applyOps [GenOp.next, GenOp.next, GenOp.beginIt, GenOp.plusIt]
        (GenSt.init [0] none) = none :=
  ⟨rfl, rfl⟩

/-- C10: move assignment is self-assignment safe (`this == &r` leaves the
object unchanged and destroys nothing) and leak-free (assigning into a
handle that owns a live coroutine state destroys that state before taking
the source's, which is nulled, so each handle keeps owning at most one
state). -/
theorem C10_move_assign_self_safe_and_leak_free {σ : Type} (h : CoHandle σ)
    (s : σ) (src : CoHandle σ) :
    h.moveAssign h true = (h, h, none)
    ∧ CoHandle.moveAssign ⟨some s⟩ src false = (⟨src.co⟩, ⟨none⟩, some s) :=
  ⟨rfl, rfl⟩
